import Mathlib

/-!
# Verification of the preprocessing-gradient EDA helpers

A shallow embedding of the repository's dataframe routines
(`custom_drop_na`, `get_basic_info`, `get_missing_formatted`,
`multiboxplot` / `get_outliers`, `prepare_pca_groups`) over a list-based
table model, together with proofs of the behavioural properties stated
in the specification.

Tables are modelled as a header (column names and dtypes) plus a list of
rows; a cell is either a missing value (`null`), a rational number, or a
string.  Rational numbers stand in for the float values of the original
code; all fractions (missing-value ratios, quantiles, fences) are exact.
-/

attribute [local semireducible] Rat.add Rat.mul Rat.sub Rat.inv

/-- Decidable equality of `Except` outcomes, for evaluating the embedded
routines on concrete inputs. -/
instance {ε α : Type} [DecidableEq ε] [DecidableEq α] : DecidableEq (Except ε α) := fun x y =>
  match x, y with
  | Except.ok a, Except.ok b =>
    if h : a = b then isTrue (by rw [h])
    else isFalse (by intro hc; cases hc; exact h rfl)
  | Except.ok _, Except.error _ => isFalse (by intro hc; cases hc)
  | Except.error _, Except.ok _ => isFalse (by intro hc; cases hc)
  | Except.error e, Except.error f =>
    if h : e = f then isTrue (by rw [h])
    else isFalse (by intro hc; cases hc; exact h rfl)

namespace PG

/-- A single cell of a dataframe: missing, numeric, or string. -/
inductive Cell where
  | null : Cell
  | num (q : ℚ) : Cell
  | str (s : String) : Cell
deriving DecidableEq, Repr

/-- The dtype of a column, as far as `pd.api.types.is_numeric_dtype` needs. -/
inductive DType where
  | numeric : DType
  | object : DType
deriving DecidableEq, Repr

/-- A dataframe: named, typed columns and a list of rows.
A well-formed frame has `dtypes.length = colNames.length` and every row of
length `colNames.length`. -/
structure DataFrame where
  colNames : List String
  dtypes : List DType
  rows : List (List Cell)
deriving DecidableEq, Repr

/-- Missingness of one cell (`pd.isna`). -/
def Cell.isna : Cell → Bool
  | Cell.null => true
  | _ => false

/-- Numeric payload of a cell, if any. -/
def Cell.toNum : Cell → Option ℚ
  | Cell.num q => some q
  | _ => none

/-- Comparison `cell < bound` as pandas evaluates it on a numeric column: comparisons
with a missing value are `False`. -/
def Cell.ltQ (c : Cell) (b : ℚ) : Bool :=
  match c with
  | Cell.num q => decide (q < b)
  | _ => false

/-- Comparison `cell > bound` with missing values comparing `False`. -/
def Cell.gtQ (c : Cell) (b : ℚ) : Bool :=
  match c with
  | Cell.num q => decide (q > b)
  | _ => false

/-- Index of a named column in the header. -/
def DataFrame.colIdx (df : DataFrame) (c : String) : Nat :=
  df.colNames.indexOf c

/-- The cells of the column named `c` (`df[c]`). -/
def DataFrame.colCells (df : DataFrame) (c : String) : List Cell :=
  df.rows.map (fun r => r.getD (df.colIdx c) Cell.null)

/-- Number of missing entries of column `c` (`df[c].isna().sum()`). -/
def DataFrame.colNullCount (df : DataFrame) (c : String) : Nat :=
  ((df.colCells c).filter Cell.isna).length

/-- Number of missing entries of one row (`row.isna().sum()`). -/
def rowNullCount (r : List Cell) : Nat :=
  (r.filter Cell.isna).length

/-- Emptiness test `df.empty`: true when either axis has length zero. -/
def DataFrame.isEmptyDf (df : DataFrame) : Bool :=
  df.rows.isEmpty || df.colNames.isEmpty

/-- Keep the cells of a row whose column name satisfies `keep`,
walking the header and the row in lockstep. -/
def filterRowByHeader (keep : String → Bool) : List String → List Cell → List Cell
  | [], _ => []
  | _, [] => []
  | c :: cs, x :: xs =>
    if keep c then x :: filterRowByHeader keep cs xs else filterRowByHeader keep cs xs

/-- Keep the dtypes whose column name satisfies `keep`. -/
def filterDtypesByHeader (keep : String → Bool) : List String → List DType → List DType
  | [], _ => []
  | _, [] => []
  | c :: cs, t :: ts =>
    if keep c then t :: filterDtypesByHeader keep cs ts else filterDtypesByHeader keep cs ts

/-- Column selection: the sub-frame of the columns whose name satisfies
`keep` (used for `df.drop(columns=...)`). -/
def DataFrame.selectCols (df : DataFrame) (keep : String → Bool) : DataFrame where
  colNames := df.colNames.filter keep
  dtypes := filterDtypesByHeader keep df.colNames df.dtypes
  rows := df.rows.map (fun r => filterRowByHeader keep df.colNames r)

/-! ## `custom_drop_na` (src/custom_drop_na.py) -/

/-- The missing fraction of column `c` (`nr_of_na_in_col / nr_of_rows`). -/
def colNullFrac (df : DataFrame) (c : String) : ℚ :=
  (df.colNullCount c : ℚ) / (df.rows.length : ℚ)

/-- The list `cols_dropped` accumulated by the loop of `custom_drop_na`:
the column names whose missing fraction is `>= drop_col_threshold`. -/
def colsDroppedList (df : DataFrame) (dropColThreshold : ℚ) : List String :=
  df.colNames.filter (fun c => decide (colNullFrac df c ≥ dropColThreshold))

/-- The state of `df` after `df.drop(columns=cols_dropped, inplace=True)`. -/
def prunedCols (df : DataFrame) (dropColThreshold : ℚ) : DataFrame :=
  df.selectCols (fun c => !((colsDroppedList df dropColThreshold).contains c))

/-- The missing fraction of a row over `ncols` columns
(`row_na_count / nr_of_columns`); with zero columns the quotient is the
`0` of rational division by zero, matching the all-`False` mask pandas
produces for a zero-column frame. -/
def rowNullFrac (ncols : Nat) (r : List Cell) : ℚ :=
  (rowNullCount r : ℚ) / (ncols : ℚ)

/-- The row predicate `f1` of `custom_drop_na`. -/
def rowDropMask (ncols : Nat) (dropRowThreshold : ℚ) (r : List Cell) : Bool :=
  decide (rowNullFrac ncols r > dropRowThreshold)

/-- The frame `dropped_rows` of `custom_drop_na` (`df[mask]` on the
column-pruned frame). -/
def droppedResult (df : DataFrame) (dct drt : ℚ) : DataFrame :=
  { prunedCols df dct with
    rows := (prunedCols df dct).rows.filter
      (rowDropMask (prunedCols df dct).colNames.length drt) }

/-- The frame returned by `custom_drop_na` (`df[~mask]` on the
column-pruned frame). -/
def keptResult (df : DataFrame) (dct drt : ℚ) : DataFrame :=
  { prunedCols df dct with
    rows := (prunedCols df dct).rows.filter
      (fun r => !(rowDropMask (prunedCols df dct).colNames.length drt r)) }

/-- The routine `custom_drop_na(df, cols_to_drop, drop_col, drop_col_threshold,
drop_row, drop_row_threshold)`.

The first component is the outcome: an error message for each `raise`,
or the returned triple `(df, cols_dropped, dropped_rows)`.  The second
component is the dataframe object the caller passed, as it stands after
the call: the column drop on line 39 of the source is performed with
`inplace=True`, so it is visible to the caller, while the row filtering
only rebinds the local name `df`. -/
def customDropNa (df : DataFrame) (colsToDrop : Option (List String))
    (dropCol : Bool) (dropColThreshold : ℚ)
    (dropRow : Bool) (dropRowThreshold : ℚ) :
    Except String (DataFrame × List String × DataFrame) × DataFrame :=
  if df.isEmptyDf then
    (Except.error "The provided DataFrame is empty.", df)
  else if dropColThreshold ≤ 0 then
    (Except.error "drop_col_threshold must be a positive float.", df)
  else if dropRowThreshold ≤ 0 then
    (Except.error "drop_row_treshold must be a positive float.", df)
  else if colsToDrop = none ∧ dropCol = false ∧ dropRow = false then
    (Except.error "You know you didn't drop anything, specify the parameters", df)
  else
    (Except.ok (keptResult df dropColThreshold dropRowThreshold,
                colsDroppedList df dropColThreshold,
                droppedResult df dropColThreshold dropRowThreshold),
     prunedCols df dropColThreshold)

/-! ## Rounding (`.round(2)` of the summaries) -/

/-- Round to the nearest integer, ties to even (the rounding of
`numpy.round`, which `.round(2)` applies). -/
def roundHalfEven (x : ℚ) : ℤ :=
  let f := Rat.floor x
  let r := x - (f : ℚ)
  if r < 1/2 then f
  else if 1/2 < r then f + 1
  else if f % 2 = 0 then f else f + 1

/-- Round a rational to two decimal places, ties to even. -/
def round2 (x : ℚ) : ℚ :=
  ((roundHalfEven (x * 100) : ℚ)) / 100

/-! ## `get_missing_formatted` (src/get_missing_formatted.py) -/

/-- One row of the summary frame of `get_missing_formatted`
(`Column`, `% Missing`, `Missing Values Sum`). -/
structure SummaryRow where
  column : String
  pctMissing : ℚ
  missingSum : Nat
deriving DecidableEq, Repr

/-- The summary built on lines 36-40 of the source. -/
def missingSummary (df : DataFrame) : List SummaryRow :=
  df.colNames.map (fun c =>
    { column := c
      pctMissing := round2 ((df.colNullCount c : ℚ) / (df.rows.length : ℚ) * 100)
      missingSum := df.colNullCount c })

/-- Tie-break order used by `Series.mode` (which returns the distinct
most-frequent values in sorted order, so `iloc[0]` is the least). -/
def Cell.leKey : Cell → Cell → Bool
  | Cell.null, _ => true
  | _, Cell.null => false
  | Cell.num a, Cell.num b => decide (a ≤ b)
  | Cell.num _, Cell.str _ => true
  | Cell.str _, Cell.num _ => false
  | Cell.str a, Cell.str b => decide (a ≤ b)

/-- Mean of a list of rationals, `none` when empty (an all-missing group
keeps its missing values: `fillna(nan)` fills nothing). -/
def meanOpt (xs : List ℚ) : Option ℚ :=
  if xs.isEmpty then none else some (xs.sum / (xs.length : ℚ))

/-- First mode of a list of cells (`x.mode().iloc[0]`), `none` when the
list is empty. -/
def modeOpt (xs : List Cell) : Option Cell :=
  if xs.isEmpty then none
  else
    let m := (xs.map (fun c => xs.count c)).foldr max 0
    ((List.insertionSort (fun a b => Cell.leKey a b = true) xs.dedup).filter
      (fun c => decide (xs.count c = m))).head?

/-- Group-wise default fill of one cell of column `c`: rows are grouped
by the hard-coded `PriceCategory` column; a missing numeric cell gets the
group mean, a missing non-numeric cell the group mode (or `"Unknown"`
when the whole group is missing).  A row whose group key is itself
missing belongs to no group (`groupby` drops missing keys) and keeps its
missing value. -/
def fillCellDefault (df : DataFrame) (c : String) (r : List Cell) : Cell :=
  let j := df.colIdx c
  let kj := df.colIdx "PriceCategory"
  let x := r.getD j Cell.null
  if x.isna then
    let k := r.getD kj Cell.null
    if k.isna then x
    else
      let grp := (df.rows.filter (fun s => decide (s.getD kj Cell.null = k))).map
        (fun s => s.getD j Cell.null)
      if df.dtypes.getD j DType.object = DType.numeric then
        match meanOpt (grp.filterMap Cell.toNum) with
        | some m => Cell.num m
        | none => Cell.null
      else
        match modeOpt (grp.filter (fun y => !y.isna)) with
        | some m => m
        | none => Cell.str "Unknown"
  else x

/-- In-place default fill of one column (`df[col] = df.groupby(...)...`). -/
def fillColumnDefault (df : DataFrame) (c : String) : DataFrame :=
  { df with rows := df.rows.map (fun r => (r.set (df.colIdx c) (fillCellDefault df c r))) }

/-- The routine `get_missing_formatted(df, only_missing, fill, fill_func)`.

The first component is the outcome (the summary frame, or the uncaught
exception's description); the second is the caller's dataframe after the
call, since the fill path mutates it in place.  On the custom-fill path
(`fill=True` with a `fill_func`) line 47 of the source reads the local
variable `col`, which is assigned only by the loop of the default path,
so the call always fails with an `UnboundLocalError` before touching the
dataframe. -/
def getMissingFormatted (df : DataFrame) (onlyMissing : Bool) (fill : Bool)
    (fillFunc : Option (List Cell → Cell)) :
    Except String (List SummaryRow) × DataFrame :=
  let summary0 := missingSummary df
  let summary :=
    if onlyMissing then summary0.filter (fun s => decide (s.pctMissing > 0)) else summary0
  if fill then
    match fillFunc with
    | some _ =>
      (Except.error "UnboundLocalError: local variable col referenced before assignment", df)
    | none =>
      if "PriceCategory" ∈ df.colNames then
        (Except.ok summary, (summary.map SummaryRow.column).foldl fillColumnDefault df)
      else
        (Except.error "KeyError: PriceCategory", df)
  else
    (Except.ok summary, df)

/-! ## `get_basic_info` (src/basic_info.py) -/

/-- Distinct non-missing values (`Series.nunique(dropna=True)`). -/
def DataFrame.nuniqueByName (df : DataFrame) (c : String) : Nat :=
  (((df.colCells c).filter (fun x => !x.isna)).dedup).length

/-- One row of the column summary of `get_basic_info` (the two string
renderings — the dtype name and the sample-value preview — are display
only and not modelled). -/
structure InfoRow where
  column : String
  dtype : DType
  missingValues : Nat
  pctMissing : ℚ
  uniqueValues : Nat
deriving DecidableEq, Repr

/-- The frame `summary_df` built on lines 21-33 of the source. -/
def basicInfoSummary (df : DataFrame) : List InfoRow :=
  df.colNames.map (fun c =>
    { column := c
      dtype := df.dtypes.getD (df.colIdx c) DType.object
      missingValues := df.colNullCount c
      pctMissing := round2 ((df.colNullCount c : ℚ) / (df.rows.length : ℚ) * 100)
      uniqueValues := df.nuniqueByName c })

/-- Duplicate removal keeping the first occurrence (`drop_duplicates`). -/
def dedupKeepFirst (l : List (List Cell)) : List (List Cell) :=
  l.foldl (fun acc r => if r ∈ acc then acc else acc ++ [r]) []

/-- The routine `get_basic_info(df, remove_duplicates)`: the rendered column summary
and the returned dataframe (deduplicated when asked and duplicates
exist). -/
def getBasicInfo (df : DataFrame) (removeDuplicates : Bool) : List InfoRow × DataFrame :=
  let summary := basicInfoSummary df
  let dups := df.rows.length - (dedupKeepFirst df.rows).length
  let dfOut :=
    if removeDuplicates ∧ 0 < dups then { df with rows := dedupKeepFirst df.rows } else df
  (summary, dfOut)

/-! ## `multiboxplot` and `get_outliers` (src/multi_boxplot.py) -/

/-- Linear interpolation of a sorted list of order statistics at the
fractional position `h`: the value between the order statistics at
`⌊h⌋` and `⌊h⌋ + 1`. -/
def interpAt (s : List ℚ) (h : ℚ) : ℚ :=
  let i : Nat := (Rat.floor h).toNat
  let lo := s.getD i 0
  let hi := s.getD (i + 1) lo
  lo + (h - (i : ℚ)) * (hi - lo)

/-- Linearly interpolated quantile of an already sorted non-empty list
(the default `interpolation='linear'` of `Series.quantile`): the value at
position `q * (n - 1)`. -/
def quantileSorted (s : List ℚ) (q : ℚ) : ℚ :=
  interpAt s (q * ((s.length : ℚ) - 1))

/-- Quantile of a series (`series.quantile(q)`): sort, then interpolate. -/
def seriesQuantile (xs : List ℚ) (q : ℚ) : ℚ :=
  quantileSorted (List.insertionSort (· ≤ ·) xs) q

/-- The helper `get_outliers(column_name, iqr_const)`: quartiles of the
column with missing values dropped, fences `q1 - iqr_const*iqr` and
`q3 + iqr_const*iqr`, and the sub-frame of the rows strictly outside the
fences (comparisons with a missing value are `False`, so missing rows are
never flagged). -/
def getOutliers (df : DataFrame) (c : String) (iqrConst : ℚ) : String × DataFrame :=
  let j := df.colIdx c
  let series := (df.colCells c).filterMap Cell.toNum
  if series.isEmpty then (c, { df with rows := [] })
  else
    let q1 := seriesQuantile series (1/4)
    let q3 := seriesQuantile series (3/4)
    let iqr := q3 - q1
    let lower := q1 - iqrConst * iqr
    let upper := q3 + iqrConst * iqr
    (c, { df with rows := df.rows.filter (fun r =>
        Cell.ltQ (r.getD j Cell.null) lower || Cell.gtQ (r.getD j Cell.null) upper) })

/-- The qualifying columns of `multiboxplot`: not excluded, numeric
dtype, and at least ten distinct (non-missing) values. -/
def qualifyingColumns (df : DataFrame) (excl : List String) : List String :=
  df.colNames.filter (fun c =>
    !(excl.contains c) &&
    decide (df.dtypes.getD (df.colIdx c) DType.object = DType.numeric) &&
    decide (df.nuniqueByName c ≥ 10))

/-- The routine `multiboxplot(df, hue, cols_to_exclude, nr_of_plots_col, iqr_const)`:
validation, column filtering, and the returned list of
`(column, outlier rows)` pairs.  The rendering of the grid of box plots
is display-only and not modelled; the per-column `try/except` around
`sns.boxplot` guards the plotting call, so every qualifying column
contributes its pair. -/
def multiboxplot (df : DataFrame) (colsToExclude : Option (List String))
    (nrOfPlotsCol : ℤ) (iqrConst : ℚ) :
    Except String (List (String × DataFrame)) :=
  if df.isEmptyDf then
    Except.error "The provided DataFrame is empty."
  else if nrOfPlotsCol ≤ 0 then
    Except.error "nr_of_plots_col must be a positive integer."
  else
    let numericColumns := qualifyingColumns df (colsToExclude.getD [])
    if numericColumns.isEmpty then
      Except.error "No numeric columns available for plotting."
    else
      Except.ok (numericColumns.map (fun c => getOutliers df c iqrConst))

/-! ## `prepare_pca_groups` (src/prepare_pca_groups.py), grouping stage

The correlation matrix (`df_num.corr(method)`, pandas) and the clustering
(`sklearn.cluster.AgglomerativeClustering`) are supplied by external
statistical libraries, so the grouping stage is modelled over a given
correlation matrix. -/

/-- Entry `(i, j)` of a matrix given as a list of rows, default `0`. -/
def matGet (m : List (List ℚ)) (i j : Nat) : ℚ :=
  (m.getD i []).getD j 0

/-- The distance matrix of steps 5-6 of the source: absolute correlations
(after `fillna(0)`), distance `1 - |corr|`, and a zeroed diagonal. -/
def corrToDistance (corr : List (List ℚ)) : List (List ℚ) :=
  (List.range corr.length).map (fun i =>
    (List.range (corr.getD i []).length).map (fun j =>
      if i = j then 0 else 1 - |matGet corr i j|))

/-- Modelled from the spec: average-linkage distance between two groups
of column indices, for the externally supplied hierarchical clustering
("grouping items by iteratively merging the closest pair/group under a
distance metric"). -/
def avgLinkage (dist : List (List ℚ)) (a b : List Nat) : ℚ :=
  ((a.map (fun i => (b.map (fun j => matGet dist i j)).sum)).sum) /
    (((a.length * b.length : Nat) : ℚ))

/-- All index pairs `i < j` below `k`. -/
def clusterPairs (k : Nat) : List (Nat × Nat) :=
  ((List.range k).map (fun i =>
    ((List.range k).filter (fun j => decide (i < j))).map (fun j => (i, j)))).flatten

/-- Modelled from the spec: the closest pair of current clusters under
average linkage (`none` when fewer than two clusters remain). -/
def bestPair (dist : List (List ℚ)) (cs : List (List Nat)) : Option (Nat × Nat) :=
  (clusterPairs cs.length).foldl (fun acc p =>
    match acc with
    | none => some p
    | some q =>
      if avgLinkage dist (cs.getD p.1 []) (cs.getD p.2 []) <
          avgLinkage dist (cs.getD q.1 []) (cs.getD q.2 []) then some p else some q) none

/-- Replace clusters `i` and `j` by their union. -/
def mergeClusters (cs : List (List Nat)) (i j : Nat) : List (List Nat) :=
  (cs.getD i [] ++ cs.getD j []) ::
    ((List.range cs.length).filterMap (fun k =>
      if k = i ∨ k = j then none else some (cs.getD k [])))

/-- Modelled from the spec: agglomerative clustering with a distance
cutoff — iteratively merge the closest pair of clusters while its linkage
distance is strictly below the threshold (scikit-learn's
`distance_threshold` is the "linkage distance threshold at or above which
clusters will not be merged"); `fuel` bounds the number of merges. -/
def agglomerate (dist : List (List ℚ)) (threshold : ℚ) :
    Nat → List (List Nat) → List (List Nat)
  | 0, cs => cs
  | Nat.succ fuel, cs =>
    match bestPair dist cs with
    | none => cs
    | some (i, j) =>
      if avgLinkage dist (cs.getD i []) (cs.getD j []) < threshold then
        agglomerate dist threshold fuel (mergeClusters cs i j)
      else cs

/-- Steps 6-8 of `prepare_pca_groups` on the surviving numeric columns
`colNames` and their correlation matrix `corr`: build the distance
matrix, cluster with cutoff `1 - corr_threshold`, and name the groups
`group_1`, `group_2`, ... -/
def pcaGroups (colNames : List String) (corr : List (List ℚ))
    (corrThreshold : ℚ) : List (String × List String) :=
  let dist := corrToDistance corr
  let initial := (List.range colNames.length).map (fun i => [i])
  let clusters := agglomerate dist (1 - corrThreshold) colNames.length initial
  (List.range clusters.length).map (fun k =>
    ("group_" ++ toString (k + 1), (clusters.getD k []).map (fun i => colNames.getD i "")))

end PG

namespace PG

/-! ## Concrete frames used to instantiate the theorems -/

/-- Two columns over three rows; column `a` is two-thirds missing,
column `b` one-third missing, the last row all-missing after pruning. -/
def dfA : DataFrame :=
  { colNames := ["a", "b"]
    dtypes := [DType.numeric, DType.numeric]
    rows := [[Cell.num 1, Cell.num 1], [Cell.null, Cell.num 2], [Cell.null, Cell.null]] }

/-- A numeric column `0..9` plus the value `100`, a clear outlier. -/
def dfB : DataFrame :=
  { colNames := ["x"]
    dtypes := [DType.numeric]
    rows := ((List.range 10).map (fun i => [Cell.num i])) ++ [[Cell.num 100]] }

/-- One column, one missing value out of two rows. -/
def dfC : DataFrame :=
  { colNames := ["a"], dtypes := [DType.numeric], rows := [[Cell.num 1], [Cell.null]] }

/-- Two columns whose first column is entirely missing. -/
def dfD : DataFrame :=
  { colNames := ["a", "b"]
    dtypes := [DType.numeric, DType.numeric]
    rows := [[Cell.null, Cell.num 1], [Cell.null, Cell.num 2]] }

/-- A constant-valued numeric column with one missing entry. -/
def dfE : DataFrame :=
  { colNames := ["k"]
    dtypes := [DType.numeric]
    rows := [[Cell.num 5], [Cell.num 5], [Cell.null]] }

/-- A numeric column `0..9` plus the value `15`, which sits exactly on
the upper fence for `iqr_const = 3/2` (`q3 = 15/2`, `iqr = 5`). -/
def dfF : DataFrame :=
  { colNames := ["x"]
    dtypes := [DType.numeric]
    rows := ((List.range 10).map (fun i => [Cell.num i])) ++ [[Cell.num 15]] }

/-! ## Lemmas about `custom_drop_na` -/

/-- A successful call passed every validation check. -/
lemma customDropNa_ok_forces {df : DataFrame} {ctd : Option (List String)}
    {dc : Bool} {dct : ℚ} {dr : Bool} {drt : ℚ}
    {t : DataFrame × List String × DataFrame}
    (hres : (customDropNa df ctd dc dct dr drt).1 = Except.ok t) :
    df.isEmptyDf = false ∧ 0 < dct ∧ 0 < drt ∧
      ¬(ctd = none ∧ dc = false ∧ dr = false) := by
  unfold customDropNa at hres
  split_ifs at hres with h1 h2 h3 h4
  exact ⟨by simpa using h1, by simpa [not_le] using h2, by simpa [not_le] using h3, h4⟩

/-- Evaluation of `custom_drop_na` when every validation check passes. -/
lemma customDropNa_eq_of_valid (df : DataFrame) (ctd : Option (List String))
    (dc : Bool) (dct : ℚ) (dr : Bool) (drt : ℚ)
    (h1 : df.isEmptyDf = false) (h2 : 0 < dct) (h3 : 0 < drt)
    (h4 : ¬(ctd = none ∧ dc = false ∧ dr = false)) :
    customDropNa df ctd dc dct dr drt =
      (Except.ok (keptResult df dct drt, colsDroppedList df dct, droppedResult df dct drt),
       prunedCols df dct) := by
  unfold customDropNa
  rw [if_neg (by simp [h1]), if_neg (not_le.mpr h2), if_neg (not_le.mpr h3), if_neg h4]

/-- The map `filterRowByHeader` with an all-true predicate is the identity on a
row of header length. -/
lemma filterRowByHeader_all (cs : List String) (xs : List Cell)
    (h : xs.length = cs.length) {keep : String → Bool}
    (hk : ∀ c ∈ cs, keep c = true) :
    filterRowByHeader keep cs xs = xs := by
  induction cs generalizing xs with
  | nil =>
    cases xs with
    | nil => rfl
    | cons x xs => simp at h
  | cons c cs ih =>
    cases xs with
    | nil => simp at h
    | cons x xs =>
      simp only [filterRowByHeader]
      rw [if_pos (hk c (by simp))]
      have := ih xs (by simpa using h) (fun d hd => hk d (by simp [hd]))
      rw [this]

/-- The map `filterDtypesByHeader` with an all-true predicate is the identity. -/
lemma filterDtypesByHeader_all (cs : List String) (ts : List DType)
    (h : ts.length = cs.length) {keep : String → Bool}
    (hk : ∀ c ∈ cs, keep c = true) :
    filterDtypesByHeader keep cs ts = ts := by
  induction cs generalizing ts with
  | nil =>
    cases ts with
    | nil => rfl
    | cons t ts => simp at h
  | cons c cs ih =>
    cases ts with
    | nil => simp at h
    | cons t ts =>
      simp only [filterDtypesByHeader]
      rw [if_pos (hk c (by simp))]
      have := ih ts (by simpa using h) (fun d hd => hk d (by simp [hd]))
      rw [this]

/-- Selecting every column of a well-formed frame gives the frame back. -/
lemma selectCols_all (df : DataFrame) {keep : String → Bool}
    (hk : ∀ c ∈ df.colNames, keep c = true)
    (hwd : df.dtypes.length = df.colNames.length)
    (hwr : ∀ r ∈ df.rows, r.length = df.colNames.length) :
    df.selectCols keep = df := by
  obtain ⟨cn, dt, rs⟩ := df
  simp only [DataFrame.selectCols, DataFrame.mk.injEq]
  refine ⟨List.filter_eq_self.mpr hk, filterDtypesByHeader_all cn dt hwd hk, ?_⟩
  have hmap : ∀ r ∈ rs, filterRowByHeader keep cn r = r := fun r hr =>
    filterRowByHeader_all cn r (hwr r hr) hk
  calc rs.map (fun r => filterRowByHeader keep cn r)
      = rs.map id := List.map_congr_left hmap
    _ = rs := List.map_id rs

/-! ## The claims -/

/-- C5: on a non-empty frame, the pruning routine raises the
threshold-validation error whenever `drop_col_threshold ≤ 0`, or (with a
valid column threshold) whenever `drop_row_threshold ≤ 0`, and raises the
"nothing to do" error when both thresholds are valid, `cols_to_drop` is
`None` and both drop flags are `False`; in every case the caller's frame
is returned untouched and no pruning happens. -/
theorem c5_pruning_validation (df : DataFrame) (ctd : Option (List String))
    (dc : Bool) (dct : ℚ) (dr : Bool) (drt : ℚ)
    (hne : df.isEmptyDf = false) :
    (dct ≤ 0 →
      customDropNa df ctd dc dct dr drt =
        (Except.error "drop_col_threshold must be a positive float.", df)) ∧
    (0 < dct → drt ≤ 0 →
      customDropNa df ctd dc dct dr drt =
        (Except.error "drop_row_treshold must be a positive float.", df)) ∧
    (0 < dct → 0 < drt → ctd = none → dc = false → dr = false →
      customDropNa df ctd dc dct dr drt =
        (Except.error "You know you didn't drop anything, specify the parameters", df)) := by
  refine ⟨fun h => ?_, fun h2 h => ?_, fun h2 h3 hc hdc hdr => ?_⟩ <;> unfold customDropNa
  · rw [if_neg (by simp [hne]), if_pos h]
  · rw [if_neg (by simp [hne]), if_neg (not_le.mpr h2), if_pos h]
  · rw [if_neg (by simp [hne]), if_neg (not_le.mpr h2), if_neg (not_le.mpr h3),
      if_pos ⟨hc, hdc, hdr⟩]

/-- Witness for C5 at concrete inputs: a non-positive column threshold
and a call with no drop option selected both fail. -/
theorem c5_pruning_validation_witness :
    dfA.isEmptyDf = false ∧
    customDropNa dfA none true (-1) true ((1:ℚ)/2) =
      (Except.error "drop_col_threshold must be a positive float.", dfA) ∧
    customDropNa dfA none false ((1:ℚ)/2) false ((1:ℚ)/2) =
      (Except.error "You know you didn't drop anything, specify the parameters", dfA) :=
  ⟨by decide,
   (c5_pruning_validation dfA none true (-1) true ((1:ℚ)/2) (by decide)).1 (by norm_num),
   (c5_pruning_validation dfA none false ((1:ℚ)/2) false ((1:ℚ)/2) (by decide)).2.2
     (by norm_num) (by norm_num) rfl rfl rfl⟩

/-- C4: once validation passes, the result of `custom_drop_na` does
not depend on `drop_col`, `drop_row`, or the contents of `cols_to_drop`:
two calls differing only in those arguments agree on the whole result
(returned frame, dropped columns, dropped rows, and the caller-visible
frame), so in particular columns named in `cols_to_drop` are never
removed on that account. -/
theorem c4_drop_flags_ignored (df : DataFrame) (dct drt : ℚ)
    (ctd1 ctd2 : Option (List String)) (dc1 dc2 dr1 dr2 : Bool)
    (h1 : ¬(ctd1 = none ∧ dc1 = false ∧ dr1 = false))
    (h2 : ¬(ctd2 = none ∧ dc2 = false ∧ dr2 = false)) :
    customDropNa df ctd1 dc1 dct dr1 drt = customDropNa df ctd2 dc2 dct dr2 drt := by
  unfold customDropNa
  split_ifs <;> rfl

/-- Witness for C4: asking to drop column `b` by name gives the very same
result as not naming any column. -/
theorem c4_drop_flags_ignored_witness :
    customDropNa dfA (some ["b"]) false ((1:ℚ)/2) false ((1:ℚ)/2) =
      customDropNa dfA none true ((1:ℚ)/2) true ((1:ℚ)/2) :=
  c4_drop_flags_ignored dfA ((1:ℚ)/2) ((1:ℚ)/2) (some ["b"]) none false true false true
    (by simp) (by simp)

/-- C2 as stated is false: on a one-column frame with one missing
value out of two rows, column threshold `3/5` drops no column, yet the
all-missing row is dropped by row threshold `1/2`, so the returned table
differs from the input. -/
theorem c2_counterexample :
    (customDropNa dfC none true ((3:ℚ)/5) true ((1:ℚ)/2)).1 =
      Except.ok ({ colNames := ["a"], dtypes := [DType.numeric],
                   rows := [[Cell.num 1]] },
                 ([] : List String),
                 { colNames := ["a"], dtypes := [DType.numeric],
                   rows := [[Cell.null]] }) ∧
    ({ colNames := ["a"], dtypes := [DType.numeric],
       rows := [[Cell.num 1]] } : DataFrame) ≠ dfC := by
  decide

/-- C2 amended: if the dropped-columns list is empty *and the
dropped-rows table is empty*, the returned table is identical to the
well-formed input table (same rows, same columns, same values). -/
theorem c2_amended (df : DataFrame) (ctd : Option (List String)) (dc : Bool)
    (dct : ℚ) (dr : Bool) (drt : ℚ)
    (kept : DataFrame) (cd : List String) (dropped : DataFrame)
    (hwd : df.dtypes.length = df.colNames.length)
    (hwr : ∀ r ∈ df.rows, r.length = df.colNames.length)
    (hres : (customDropNa df ctd dc dct dr drt).1 = Except.ok (kept, cd, dropped))
    (hcd : cd = []) (hdrop : dropped.rows = []) :
    kept = df := by
  obtain ⟨h1, h2, h3, h4⟩ := customDropNa_ok_forces hres
  rw [customDropNa_eq_of_valid df ctd dc dct dr drt h1 h2 h3 h4] at hres
  simp only [Except.ok.injEq, Prod.mk.injEq] at hres
  obtain ⟨hk, hc, hd⟩ := hres
  subst hk
  subst hc
  subst hd
  have hpruned : prunedCols df dct = df := by
    unfold prunedCols
    rw [hcd]
    exact selectCols_all df (fun c _ => rfl) hwd hwr
  have hmask : ∀ r ∈ df.rows,
      rowDropMask df.colNames.length drt r = false := by
    have h := hdrop
    unfold droppedResult at h
    rw [hpruned] at h
    simpa using List.filter_eq_nil_iff.mp h
  unfold keptResult
  rw [hpruned]
  have hfil : df.rows.filter (fun r => !(rowDropMask df.colNames.length drt r)) = df.rows :=
    List.filter_eq_self.mpr (fun r hr => by rw [hmask r hr]; rfl)
  rw [hfil]

/-- Witness for the amended C2: on a frame where nothing reaches either
threshold the routine returns the input unchanged. -/
theorem c2_amended_witness :
    (customDropNa dfC none true ((3:ℚ)/5) true (1 : ℚ)).1 =
      Except.ok (dfC, ([] : List String),
                 { colNames := ["a"], dtypes := [DType.numeric],
                   rows := ([] : List (List Cell)) }) ∧
    dfC = dfC :=
  ⟨by decide,
   c2_amended dfC none true ((3:ℚ)/5) true (1 : ℚ) dfC []
     { colNames := ["a"], dtypes := [DType.numeric], rows := [] }
     (by decide) (by decide) (by decide) rfl rfl⟩

/-- C3 as stated is false: `custom_drop_na` mutates the caller's
frame — after a call that drops the all-missing column `a` of `dfD`, the
object the caller passed no longer equals its original value. -/
theorem c3_counterexample :
    (customDropNa dfD none true ((1:ℚ)/2) true ((1:ℚ)/2)).2 ≠ dfD := by
  decide

/-- C3 amended: the imputation path aside, `custom_drop_na` also
mutates the caller's table, but only by the in-place column drop: after
a successful call the caller's frame is exactly the column-pruned frame —
it keeps every row (row removal appears only in the returned value), and
whenever some column met the column threshold its header differs from
the original. -/
theorem c3_amended (df : DataFrame) (ctd : Option (List String)) (dc : Bool)
    (dct : ℚ) (dr : Bool) (drt : ℚ)
    (t : DataFrame × List String × DataFrame)
    (hres : (customDropNa df ctd dc dct dr drt).1 = Except.ok t) :
    (customDropNa df ctd dc dct dr drt).2 = prunedCols df dct ∧
    (customDropNa df ctd dc dct dr drt).2.rows.length = df.rows.length ∧
    (colsDroppedList df dct ≠ [] →
      (customDropNa df ctd dc dct dr drt).2.colNames ≠ df.colNames) := by
  obtain ⟨h1, h2, h3, h4⟩ := customDropNa_ok_forces hres
  rw [customDropNa_eq_of_valid df ctd dc dct dr drt h1 h2 h3 h4]
  refine ⟨rfl, ?_, ?_⟩
  · unfold prunedCols DataFrame.selectCols
    simp
  · intro hne heq
    obtain ⟨c, hc⟩ := List.exists_mem_of_ne_nil _ hne
    have hcmem : c ∈ df.colNames := (List.mem_filter.mp hc).1
    have hfil : df.colNames.filter
        (fun x => !((colsDroppedList df dct).contains x)) = df.colNames := heq
    have hmem2 : c ∈ df.colNames.filter
        (fun x => !((colsDroppedList df dct).contains x)) := by
      rw [hfil]
      exact hcmem
    have hq := (List.mem_filter.mp hmem2).2
    simp only [List.contains, List.elem_eq_mem, Bool.not_eq_true',
      decide_eq_false_iff_not] at hq
    exact hq hc

/-- Witness for the amended C3: a concrete successful call on `dfD`. -/
theorem c3_amended_witness :
    (customDropNa dfD none true ((1:ℚ)/2) true ((1:ℚ)/2)).2 = prunedCols dfD ((1:ℚ)/2) ∧
    (customDropNa dfD none true ((1:ℚ)/2) true ((1:ℚ)/2)).2.rows.length =
      dfD.rows.length ∧
    (colsDroppedList dfD ((1:ℚ)/2) ≠ [] →
      (customDropNa dfD none true ((1:ℚ)/2) true ((1:ℚ)/2)).2.colNames ≠ dfD.colNames) :=
  c3_amended dfD none true ((1:ℚ)/2) true ((1:ℚ)/2)
    ({ colNames := ["b"], dtypes := [DType.numeric],
       rows := [[Cell.num 1], [Cell.num 2]] },
     ["a"],
     { colNames := ["b"], dtypes := [DType.numeric],
       rows := ([] : List (List Cell)) })
    (by decide)

/-- C1: for a frame passing validation, a column is in the
dropped-columns list and absent from the returned table's header exactly
when its missing fraction is `≥ drop_col_threshold`; and a row of the
column-pruned frame is in the dropped-rows table and absent from the
returned table exactly when its missing fraction over the post-pruning
column count is `> drop_row_threshold`. -/
theorem c1_pruning_iff (df : DataFrame) (ctd : Option (List String)) (dc : Bool)
    (dct : ℚ) (dr : Bool) (drt : ℚ)
    (kept : DataFrame) (cd : List String) (dropped : DataFrame)
    (hres : (customDropNa df ctd dc dct dr drt).1 = Except.ok (kept, cd, dropped)) :
    (∀ c ∈ df.colNames, (c ∈ cd ∧ c ∉ kept.colNames ↔ dct ≤ colNullFrac df c)) ∧
    (∀ r ∈ (prunedCols df dct).rows,
      (r ∈ dropped.rows ∧ r ∉ kept.rows ↔
        drt < rowNullFrac (prunedCols df dct).colNames.length r)) := by
  obtain ⟨h1, h2, h3, h4⟩ := customDropNa_ok_forces hres
  rw [customDropNa_eq_of_valid df ctd dc dct dr drt h1 h2 h3 h4] at hres
  simp only [Except.ok.injEq, Prod.mk.injEq] at hres
  obtain ⟨hk, hc, hd⟩ := hres
  subst hk
  subst hc
  subst hd
  constructor
  · intro c hcmem
    have hkcols : (keptResult df dct drt).colNames =
        df.colNames.filter (fun x => !((colsDroppedList df dct).contains x)) := rfl
    constructor
    · rintro ⟨hcd, -⟩
      have := (List.mem_filter.mp hcd).2
      simpa [ge_iff_le] using of_decide_eq_true this
    · intro hle
      have hcd : c ∈ colsDroppedList df dct :=
        List.mem_filter.mpr ⟨hcmem, by simpa [ge_iff_le] using hle⟩
      refine ⟨hcd, fun hmem => ?_⟩
      rw [hkcols] at hmem
      have hq := (List.mem_filter.mp hmem).2
      simp only [List.contains, List.elem_eq_mem, Bool.not_eq_true',
        decide_eq_false_iff_not] at hq
      exact hq hcd
  · intro r hr
    have hmaskiff : (rowDropMask (prunedCols df dct).colNames.length drt r = true) ↔
        drt < rowNullFrac (prunedCols df dct).colNames.length r := by
      unfold rowDropMask
      simp [gt_iff_lt]
    constructor
    · rintro ⟨hdr, -⟩
      have := (List.mem_filter.mp hdr).2
      exact hmaskiff.mp this
    · intro hlt
      refine ⟨List.mem_filter.mpr ⟨hr, hmaskiff.mpr hlt⟩, fun hmem => ?_⟩
      have := (List.mem_filter.mp hmem).2
      rw [Bool.not_eq_true'] at this
      rw [hmaskiff.mpr hlt] at this
      cases this

/-- Witness for C1: the concrete run on `dfA` (column `a` dropped at
fraction `2/3 ≥ 1/2`; the remaining all-missing row dropped at
fraction `1 > 1/2`). -/
theorem c1_pruning_iff_witness :
    (∀ c ∈ dfA.colNames,
      (c ∈ ["a"] ∧
        c ∉ ({ colNames := ["b"], dtypes := [DType.numeric],
               rows := [[Cell.num 1], [Cell.num 2]] } : DataFrame).colNames ↔
        (1:ℚ)/2 ≤ colNullFrac dfA c)) ∧
    (∀ r ∈ (prunedCols dfA ((1:ℚ)/2)).rows,
      (r ∈ ({ colNames := ["b"], dtypes := [DType.numeric],
              rows := [[Cell.null]] } : DataFrame).rows ∧
        r ∉ ({ colNames := ["b"], dtypes := [DType.numeric],
               rows := [[Cell.num 1], [Cell.num 2]] } : DataFrame).rows ↔
        (1:ℚ)/2 < rowNullFrac (prunedCols dfA ((1:ℚ)/2)).colNames.length r)) :=
  c1_pruning_iff dfA none true ((1:ℚ)/2) true ((1:ℚ)/2)
    { colNames := ["b"], dtypes := [DType.numeric],
      rows := [[Cell.num 1], [Cell.num 2]] }
    ["a"]
    { colNames := ["b"], dtypes := [DType.numeric], rows := [[Cell.null]] }
    (by decide)

/-- C10: `get_missing_formatted` with `fill=True` and a non-`None`
`fill_func` always fails with the unbound-local error (line 47 reads
`col` before any assignment), so the custom-fill path fills nothing and
the caller's frame is unchanged. -/
theorem c10_custom_fill_unbound (df : DataFrame) (om : Bool) (f : List Cell → Cell) :
    getMissingFormatted df om true (some f) =
      (Except.error "UnboundLocalError: local variable col referenced before assignment", df) :=
  rfl

/-- C8: both the overview routine and the missing-value summary
report, for every column, a missing count equal to the column's null
count and a missing percentage equal to null count over row count times
100, rounded to two decimals; each report covers every column once. -/
theorem c8_missing_counts (df : DataFrame) (hrows : 0 < df.rows.length) :
    ((basicInfoSummary df).map InfoRow.column = df.colNames ∧
      ∀ ir ∈ basicInfoSummary df,
        ir.missingValues = df.colNullCount ir.column ∧
        ir.pctMissing =
          round2 ((df.colNullCount ir.column : ℚ) / (df.rows.length : ℚ) * 100)) ∧
    ((missingSummary df).map SummaryRow.column = df.colNames ∧
      (getMissingFormatted df false false none).1 = Except.ok (missingSummary df) ∧
      ∀ sr ∈ missingSummary df,
        sr.missingSum = df.colNullCount sr.column ∧
        sr.pctMissing =
          round2 ((df.colNullCount sr.column : ℚ) / (df.rows.length : ℚ) * 100)) := by
  refine ⟨⟨?_, ?_⟩, ?_, ?_, ?_⟩
  · unfold basicInfoSummary
    rw [List.map_map]
    exact List.map_id df.colNames
  · intro ir hir
    unfold basicInfoSummary at hir
    obtain ⟨c, _, rfl⟩ := List.mem_map.mp hir
    exact ⟨rfl, rfl⟩
  · unfold missingSummary
    rw [List.map_map]
    exact List.map_id df.colNames
  · rfl
  · intro sr hsr
    unfold missingSummary at hsr
    obtain ⟨c, _, rfl⟩ := List.mem_map.mp hsr
    exact ⟨rfl, rfl⟩

/-- Witness for C8 on `dfA` (three rows, columns `a` and `b`). -/
theorem c8_missing_counts_witness :
    ((basicInfoSummary dfA).map InfoRow.column = dfA.colNames ∧
      ∀ ir ∈ basicInfoSummary dfA,
        ir.missingValues = dfA.colNullCount ir.column ∧
        ir.pctMissing =
          round2 ((dfA.colNullCount ir.column : ℚ) / (dfA.rows.length : ℚ) * 100)) ∧
    ((missingSummary dfA).map SummaryRow.column = dfA.colNames ∧
      (getMissingFormatted dfA false false none).1 = Except.ok (missingSummary dfA) ∧
      ∀ sr ∈ missingSummary dfA,
        sr.missingSum = dfA.colNullCount sr.column ∧
        sr.pctMissing =
          round2 ((dfA.colNullCount sr.column : ℚ) / (dfA.rows.length : ℚ) * 100)) :=
  c8_missing_counts dfA (by decide)

/-- The helper of `multiboxplot` always reports the requested column
name as the first component of its pair. -/
lemma getOutliers_fst (df : DataFrame) (c : String) (k : ℚ) :
    (getOutliers df c k).1 = c := by
  unfold getOutliers
  by_cases h : (List.filterMap Cell.toNum (df.colCells c)).isEmpty = true <;> simp [h]

/-- Membership in the qualifying-column list spelt out. -/
lemma mem_qualifyingColumns {df : DataFrame} {excl : List String} {c : String}
    (h : c ∈ qualifyingColumns df excl) :
    c ∈ df.colNames ∧ excl.contains c = false ∧
      df.dtypes.getD (df.colIdx c) DType.object = DType.numeric ∧
      10 ≤ df.nuniqueByName c := by
  unfold qualifyingColumns at h
  have h1 := (List.mem_filter.mp h).1
  have h2 := (List.mem_filter.mp h).2
  simp only [Bool.and_eq_true, Bool.not_eq_true', decide_eq_true_eq] at h2
  exact ⟨h1, h2.1.1, h2.1.2, h2.2⟩

/-- C7: `multiboxplot` processes exactly the columns that are
numeric, have at least ten distinct values, and are not excluded: with
no qualifying column it raises the "no numeric columns" error, otherwise
it returns one `(column, outliers)` pair per qualifying column, in
order, and every returned pair names a qualifying column. -/
theorem c7_multiboxplot_columns (df : DataFrame) (excl : Option (List String))
    (npc : ℤ) (iqrc : ℚ)
    (hne : df.isEmptyDf = false) (hnpc : 0 < npc) :
    (qualifyingColumns df (excl.getD []) = [] →
      multiboxplot df excl npc iqrc =
        Except.error "No numeric columns available for plotting.") ∧
    (qualifyingColumns df (excl.getD []) ≠ [] →
      multiboxplot df excl npc iqrc =
        Except.ok ((qualifyingColumns df (excl.getD [])).map
          (fun c => getOutliers df c iqrc))) ∧
    (∀ l, multiboxplot df excl npc iqrc = Except.ok l →
      l.map Prod.fst = qualifyingColumns df (excl.getD []) ∧
      ∀ p ∈ l, p.1 ∈ df.colNames ∧ (excl.getD []).contains p.1 = false ∧
        df.dtypes.getD (df.colIdx p.1) DType.object = DType.numeric ∧
        10 ≤ df.nuniqueByName p.1) := by
  have hval : multiboxplot df excl npc iqrc =
      (if (qualifyingColumns df (excl.getD [])).isEmpty then
        Except.error "No numeric columns available for plotting."
      else
        Except.ok ((qualifyingColumns df (excl.getD [])).map
          (fun c => getOutliers df c iqrc))) := by
    unfold multiboxplot
    rw [if_neg (by simp [hne]), if_neg (not_le.mpr hnpc)]
  refine ⟨fun h => ?_, fun h => ?_, fun l hl => ?_⟩
  · rw [hval, if_pos (by simp [h])]
  · rw [hval, if_neg (by simpa using h)]
  · rw [hval] at hl
    have hq : ¬(qualifyingColumns df (excl.getD [])).isEmpty = true := by
      intro hemp
      rw [if_pos hemp] at hl
      cases hl
    rw [if_neg hq] at hl
    have hl' : (qualifyingColumns df (excl.getD [])).map
        (fun c => getOutliers df c iqrc) = l := Except.ok.inj hl
    constructor
    · rw [← hl', List.map_map]
      have hcomp : (Prod.fst ∘ fun c => getOutliers df c iqrc) = id := by
        funext c
        exact getOutliers_fst df c iqrc
      rw [hcomp, List.map_id]
    · intro p hp
      rw [← hl'] at hp
      obtain ⟨c, hc, rfl⟩ := List.mem_map.mp hp
      have hm := mem_qualifyingColumns hc
      rw [getOutliers_fst]
      exact hm

/-- Witness for C7 on `dfB` (one numeric column with eleven distinct
values, among which `100` is the single outlier). -/
theorem c7_multiboxplot_columns_witness :
    (qualifyingColumns dfB [] = [] →
      multiboxplot dfB none 3 ((3:ℚ)/2) =
        Except.error "No numeric columns available for plotting.") ∧
    (qualifyingColumns dfB [] ≠ [] →
      multiboxplot dfB none 3 ((3:ℚ)/2) =
        Except.ok ((qualifyingColumns dfB []).map
          (fun c => getOutliers dfB c ((3:ℚ)/2)))) ∧
    (∀ l, multiboxplot dfB none 3 ((3:ℚ)/2) = Except.ok l →
      l.map Prod.fst = qualifyingColumns dfB [] ∧
      ∀ p ∈ l, p.1 ∈ dfB.colNames ∧ ([] : List String).contains p.1 = false ∧
        dfB.dtypes.getD (dfB.colIdx p.1) DType.object = DType.numeric ∧
        10 ≤ dfB.nuniqueByName p.1) :=
  c7_multiboxplot_columns dfB none 3 ((3:ℚ)/2) (by decide) (by decide)

/-! ## Lemmas on the interpolated quantile -/

/-- The function `Rat.floor` agrees with the floor of the `FloorRing` instance. -/
lemma ratFloor_eq_floor (q : ℚ) : Rat.floor q = ⌊q⌋ := rfl

/-- In-range `getD` is `get`. -/
lemma getD_eq_get (s : List ℚ) (d : ℚ) {i : Nat} (hi : i < s.length) :
    s.getD i d = s.get ⟨i, hi⟩ := by
  rw [List.getD_eq_getElem?_getD, List.getElem?_eq_getElem hi, List.get_eq_getElem]
  rfl

/-- Entries of a sorted list are monotone in the index. -/
lemma sorted_get_mono {s : List ℚ} (hs : List.Sorted (· ≤ ·) s) {i j : Fin s.length}
    (hij : i ≤ j) : s.get i ≤ s.get j := by
  rcases eq_or_lt_of_le hij with h | h
  · rw [h]
  · exact List.pairwise_iff_get.mp hs i j h

/-- The truncated floor of a nonnegative rational sits below it. -/
lemma floorToNat_cast_le {x : ℚ} (hx : 0 ≤ x) : ((Rat.floor x).toNat : ℚ) ≤ x := by
  rw [ratFloor_eq_floor]
  have h0 : 0 ≤ ⌊x⌋ := Int.floor_nonneg.mpr hx
  rw [show ((⌊x⌋.toNat : ℚ)) = ((⌊x⌋.toNat : ℤ) : ℚ) from (Int.cast_natCast _).symm,
    Int.toNat_of_nonneg h0]
  exact Int.floor_le x

/-- A nonnegative rational sits below its truncated floor plus one. -/
lemma lt_floorToNat_add_one {x : ℚ} (hx : 0 ≤ x) :
    x < ((Rat.floor x).toNat : ℚ) + 1 := by
  rw [ratFloor_eq_floor]
  have h0 : 0 ≤ ⌊x⌋ := Int.floor_nonneg.mpr hx
  rw [show ((⌊x⌋.toNat : ℚ)) = ((⌊x⌋.toNat : ℤ) : ℚ) from (Int.cast_natCast _).symm,
    Int.toNat_of_nonneg h0]
  exact Int.lt_floor_add_one x

/-- The interpolation index stays inside the list. -/
lemma floorToNat_lt_of_le {x : ℚ} {n : Nat} (hn : 1 ≤ n) (hx0 : 0 ≤ x)
    (hx : x ≤ (n : ℚ) - 1) : (Rat.floor x).toNat < n := by
  rw [ratFloor_eq_floor]
  have h1 : ⌊x⌋ ≤ ⌊((n : ℚ) - 1)⌋ := Int.floor_le_floor hx
  have h2 : ((n : ℚ) - 1) = (((n : ℤ) - 1 : ℤ) : ℚ) := by push_cast; ring
  rw [h2, Int.floor_intCast] at h1
  have h3 : ⌊x⌋.toNat ≤ ((n : ℤ) - 1).toNat := Int.toNat_le_toNat h1
  omega

/-- Floors of ordered rationals give ordered indices. -/
lemma floorToNat_mono {x y : ℚ} (hxy : x ≤ y) :
    (Rat.floor x).toNat ≤ (Rat.floor y).toNat := by
  rw [ratFloor_eq_floor, ratFloor_eq_floor]
  exact Int.toNat_le_toNat (Int.floor_le_floor hxy)

/-- In a sorted list, the interpolation's upper neighbour is at least its
lower neighbour (the upper neighbour defaults to the lower one past the
end of the list). -/
lemma getD_succ_ge {s : List ℚ} (hs : List.Sorted (· ≤ ·) s) {i : Nat}
    (hi : i < s.length) : s.getD i 0 ≤ s.getD (i + 1) (s.getD i 0) := by
  by_cases h : i + 1 < s.length
  · rw [getD_eq_get s _ h, getD_eq_get s _ hi]
    exact sorted_get_mono hs (Fin.mk_le_mk.mpr (Nat.le_succ i))
  · rw [List.getD_eq_default _ _ (Nat.le_of_not_lt h)]

/-- Interpolating a constant list gives the constant. -/
lemma interpAt_const {s : List ℚ} {c : ℚ} (hall : ∀ x ∈ s, x = c) {x : ℚ}
    (hx0 : 0 ≤ x) (hxn : x ≤ (s.length : ℚ) - 1) : interpAt s x = c := by
  have hne : s ≠ [] := by
    intro h
    rw [h] at hxn
    simp at hxn
    linarith
  have hn : 1 ≤ s.length := List.length_pos.mpr hne
  have hi : (Rat.floor x).toNat < s.length := floorToNat_lt_of_le hn hx0 hxn
  simp only [interpAt]
  have hlo : s.getD (Rat.floor x).toNat 0 = c := by
    rw [getD_eq_get s _ hi]
    exact hall _ (s.get_mem _ _)
  by_cases h : (Rat.floor x).toNat + 1 < s.length
  · have hhi : s.getD ((Rat.floor x).toNat + 1) (s.getD (Rat.floor x).toNat 0) = c := by
      rw [getD_eq_get s _ h]
      exact hall _ (s.get_mem _ _)
    rw [hhi, hlo]
    ring
  · rw [List.getD_eq_default _ _ (Nat.le_of_not_lt h), hlo]
    ring

/-- Monotonicity of the interpolation in the position, on a sorted
list. -/
lemma interpAt_mono {s : List ℚ} (hs : List.Sorted (· ≤ ·) s)
    {x y : ℚ} (hx0 : 0 ≤ x) (hxy : x ≤ y) (hyn : y ≤ (s.length : ℚ) - 1) :
    interpAt s x ≤ interpAt s y := by
  have hy0 : 0 ≤ y := le_trans hx0 hxy
  have hne : s ≠ [] := by
    intro h
    rw [h] at hyn
    simp at hyn
    linarith
  have hn : 1 ≤ s.length := List.length_pos.mpr hne
  simp only [interpAt]
  set i := (Rat.floor x).toNat with hidef
  set j := (Rat.floor y).toNat with hjdef
  have hin : i < s.length := floorToNat_lt_of_le hn hx0 (le_trans hxy hyn)
  have hjn : j < s.length := floorToNat_lt_of_le hn hy0 hyn
  have hij : i ≤ j := floorToNat_mono hxy
  have hxi : (i : ℚ) ≤ x := floorToNat_cast_le hx0
  have hyj : (j : ℚ) ≤ y := floorToNat_cast_le hy0
  have hxi1 : x < (i : ℚ) + 1 := lt_floorToNat_add_one hx0
  rcases eq_or_lt_of_le hij with heq | hlt
  · rw [← heq]
    have hd : s.getD i 0 ≤ s.getD (i + 1) (s.getD i 0) := getD_succ_ge hs hin
    have hxy' : x - (i : ℚ) ≤ y - (i : ℚ) := by linarith
    have hmul := mul_le_mul_of_nonneg_right hxy'
      (by linarith : (0:ℚ) ≤ s.getD (i + 1) (s.getD i 0) - s.getD i 0)
    rw [← heq] at hyj
    linarith
  · have hi1j : i + 1 ≤ j := hlt
    have hi1n : i + 1 < s.length := lt_of_le_of_lt hi1j hjn
    have hd : s.getD i 0 ≤ s.getD (i + 1) (s.getD i 0) := getD_succ_ge hs hin
    have hdj : s.getD j 0 ≤ s.getD (j + 1) (s.getD j 0) := getD_succ_ge hs hjn
    have hstep1 : s.getD i 0 + (x - (i : ℚ)) *
        (s.getD (i + 1) (s.getD i 0) - s.getD i 0) ≤ s.getD (i + 1) (s.getD i 0) := by
      have hx1 : x - (i : ℚ) ≤ 1 := by linarith
      have := mul_le_mul_of_nonneg_right hx1
        (by linarith : (0:ℚ) ≤ s.getD (i + 1) (s.getD i 0) - s.getD i 0)
      linarith
    have hstep2 : s.getD (i + 1) (s.getD i 0) ≤ s.getD j 0 := by
      rw [getD_eq_get s _ hi1n, getD_eq_get s _ hjn]
      exact sorted_get_mono hs (Fin.mk_le_mk.mpr hi1j)
    have hstep3 : s.getD j 0 ≤ s.getD j 0 + (y - (j : ℚ)) *
        (s.getD (j + 1) (s.getD j 0) - s.getD j 0) := by
      have := mul_nonneg (by linarith : (0:ℚ) ≤ y - (j : ℚ))
        (by linarith : (0:ℚ) ≤ s.getD (j + 1) (s.getD j 0) - s.getD j 0)
      linarith
    linarith

/-- The quantile of a constant list is the constant. -/
lemma quantileSorted_const {s : List ℚ} {c : ℚ} (hall : ∀ x ∈ s, x = c)
    (hne : s ≠ []) {q : ℚ} (hq0 : 0 ≤ q) (hq1 : q ≤ 1) :
    quantileSorted s q = c := by
  have hn : 1 ≤ s.length := List.length_pos.mpr hne
  have hn1 : (0:ℚ) ≤ (s.length : ℚ) - 1 := by
    have h1 : (1:ℚ) ≤ (s.length : ℚ) := by exact_mod_cast hn
    linarith
  unfold quantileSorted
  apply interpAt_const hall (mul_nonneg hq0 hn1)
  calc q * ((s.length : ℚ) - 1) ≤ 1 * ((s.length : ℚ) - 1) :=
        mul_le_mul_of_nonneg_right hq1 hn1
    _ = (s.length : ℚ) - 1 := one_mul _

/-- The quantile of a constant series is the constant. -/
lemma seriesQuantile_const {xs : List ℚ} {c : ℚ} (hall : ∀ x ∈ xs, x = c)
    (hne : xs ≠ []) {q : ℚ} (hq0 : 0 ≤ q) (hq1 : q ≤ 1) :
    seriesQuantile xs q = c := by
  have hperm := List.perm_insertionSort (· ≤ ·) xs
  unfold seriesQuantile
  exact quantileSorted_const (fun x hx => hall x (hperm.mem_iff.mp hx))
    (fun h => hne ((h ▸ hperm).symm.eq_nil)) hq0 hq1

/-- Monotonicity of `Series.quantile` in the quantile level. -/
lemma seriesQuantile_mono {xs : List ℚ} (hne : xs ≠ []) {a b : ℚ}
    (h0 : 0 ≤ a) (hab : a ≤ b) (hb1 : b ≤ 1) :
    seriesQuantile xs a ≤ seriesQuantile xs b := by
  have hsorted := List.sorted_insertionSort (α := ℚ) (· ≤ ·) xs
  have hperm := List.perm_insertionSort (α := ℚ) (· ≤ ·) xs
  have hsne : List.insertionSort (· ≤ ·) xs ≠ [] :=
    fun h => hne ((h ▸ hperm).symm.eq_nil)
  have hn : 1 ≤ (List.insertionSort (· ≤ ·) xs).length := List.length_pos.mpr hsne
  have hn1 : (0:ℚ) ≤ ((List.insertionSort (· ≤ ·) xs).length : ℚ) - 1 := by
    have h1 : (1:ℚ) ≤ ((List.insertionSort (· ≤ ·) xs).length : ℚ) := by exact_mod_cast hn
    linarith
  unfold seriesQuantile quantileSorted
  apply interpAt_mono hsorted (mul_nonneg h0 hn1)
    (mul_le_mul_of_nonneg_right hab hn1)
  calc b * (((List.insertionSort (· ≤ ·) xs).length : ℚ) - 1) ≤
        1 * (((List.insertionSort (· ≤ ·) xs).length : ℚ) - 1) :=
        mul_le_mul_of_nonneg_right hb1 hn1
    _ = ((List.insertionSort (· ≤ ·) xs).length : ℚ) - 1 := one_mul _

/-- On a non-empty series, `get_outliers` returns the rows strictly
outside the two fences. -/
lemma getOutliers_rows_of_ne {df : DataFrame} {c : String} {k : ℚ}
    (hne : (df.colCells c).filterMap Cell.toNum ≠ []) :
    (getOutliers df c k).2.rows = df.rows.filter (fun r =>
      (r.getD (df.colIdx c) Cell.null).ltQ
        (seriesQuantile ((df.colCells c).filterMap Cell.toNum) (1/4) -
          k * (seriesQuantile ((df.colCells c).filterMap Cell.toNum) (3/4) -
               seriesQuantile ((df.colCells c).filterMap Cell.toNum) (1/4))) ||
      (r.getD (df.colIdx c) Cell.null).gtQ
        (seriesQuantile ((df.colCells c).filterMap Cell.toNum) (3/4) +
          k * (seriesQuantile ((df.colCells c).filterMap Cell.toNum) (3/4) -
               seriesQuantile ((df.colCells c).filterMap Cell.toNum) (1/4)))) := by
  unfold getOutliers
  rw [if_neg (by simpa using hne)]

/-- The numeric value of a row's cell belongs to the column's series. -/
lemma cell_value_mem_series {df : DataFrame} {c : String} {r : List Cell} {v : ℚ}
    (hr : r ∈ df.rows) (hcell : r.getD (df.colIdx c) Cell.null = Cell.num v) :
    v ∈ (df.colCells c).filterMap Cell.toNum := by
  apply List.mem_filterMap.mpr
  refine ⟨Cell.num v, ?_, rfl⟩
  unfold DataFrame.colCells
  rw [← hcell]
  exact List.mem_map_of_mem _ hr

/-- C6: for a constant-valued column the two quartiles coincide, the
interquartile range is zero and no row is flagged as an outlier; and for
any column of any frame, a row whose value equals the lower or the upper
fence (`q1 - iqr_const*iqr`, `q3 + iqr_const*iqr` with a nonnegative
`iqr_const`) is never in the outlier subset, because the comparisons are
strict. -/
theorem c6_outliers_strict_fences :
    (∀ (df : DataFrame) (c : String) (k v : ℚ),
      (∀ x ∈ (df.colCells c).filterMap Cell.toNum, x = v) →
      (df.colCells c).filterMap Cell.toNum ≠ [] →
      seriesQuantile ((df.colCells c).filterMap Cell.toNum) (1/4) = v ∧
      seriesQuantile ((df.colCells c).filterMap Cell.toNum) (3/4) = v ∧
      seriesQuantile ((df.colCells c).filterMap Cell.toNum) (3/4) -
        seriesQuantile ((df.colCells c).filterMap Cell.toNum) (1/4) = 0 ∧
      (getOutliers df c k).2.rows = []) ∧
    (∀ (df : DataFrame) (c : String) (k : ℚ) (r : List Cell) (v : ℚ),
      0 ≤ k →
      (df.colCells c).filterMap Cell.toNum ≠ [] →
      r.getD (df.colIdx c) Cell.null = Cell.num v →
      (v = seriesQuantile ((df.colCells c).filterMap Cell.toNum) (1/4) -
            k * (seriesQuantile ((df.colCells c).filterMap Cell.toNum) (3/4) -
                 seriesQuantile ((df.colCells c).filterMap Cell.toNum) (1/4)) ∨
       v = seriesQuantile ((df.colCells c).filterMap Cell.toNum) (3/4) +
            k * (seriesQuantile ((df.colCells c).filterMap Cell.toNum) (3/4) -
                 seriesQuantile ((df.colCells c).filterMap Cell.toNum) (1/4))) →
      r ∉ (getOutliers df c k).2.rows) := by
  constructor
  · intro df c k v hall hne
    have hq1v : seriesQuantile ((df.colCells c).filterMap Cell.toNum) (1/4) = v :=
      seriesQuantile_const hall hne (by norm_num) (by norm_num)
    have hq3v : seriesQuantile ((df.colCells c).filterMap Cell.toNum) (3/4) = v :=
      seriesQuantile_const hall hne (by norm_num) (by norm_num)
    refine ⟨hq1v, hq3v, by rw [hq1v, hq3v]; ring, ?_⟩
    rw [getOutliers_rows_of_ne hne]
    apply List.filter_eq_nil_iff.mpr
    intro r hr
    rw [hq1v, hq3v]
    have hlow : v - k * (v - v) = v := by ring
    have hup : v + k * (v - v) = v := by ring
    rw [hlow, hup]
    cases hcell : r.getD (df.colIdx c) Cell.null with
    | null => simp [Cell.ltQ, Cell.gtQ]
    | str s => simp [Cell.ltQ, Cell.gtQ]
    | num q =>
      have hq : q = v := hall q (cell_value_mem_series hr hcell)
      simp [Cell.ltQ, Cell.gtQ, hq]
  · intro df c k r v hk hne hcell hv
    have hq13 : seriesQuantile ((df.colCells c).filterMap Cell.toNum) (1/4) ≤
        seriesQuantile ((df.colCells c).filterMap Cell.toNum) (3/4) :=
      seriesQuantile_mono hne (by norm_num) (by norm_num) (by norm_num)
    intro hmem
    rw [getOutliers_rows_of_ne hne] at hmem
    have hp := (List.mem_filter.mp hmem).2
    rw [hcell] at hp
    simp only [Cell.ltQ, Cell.gtQ, Bool.or_eq_true, decide_eq_true_eq] at hp
    have hnn : (0:ℚ) ≤ k * (seriesQuantile ((df.colCells c).filterMap Cell.toNum) (3/4) -
        seriesQuantile ((df.colCells c).filterMap Cell.toNum) (1/4)) :=
      mul_nonneg hk (by linarith)
    rcases hv with hv | hv <;> rcases hp with hp | hp <;> subst hv <;> linarith

/-- Witness for C6: the constant column of `dfE` yields equal quartiles
and no outliers, and the fence value `15` of `dfF` is not flagged. -/
theorem c6_outliers_strict_fences_witness :
    (seriesQuantile ((dfE.colCells "k").filterMap Cell.toNum) (1/4) = 5 ∧
     seriesQuantile ((dfE.colCells "k").filterMap Cell.toNum) (3/4) = 5 ∧
     seriesQuantile ((dfE.colCells "k").filterMap Cell.toNum) (3/4) -
       seriesQuantile ((dfE.colCells "k").filterMap Cell.toNum) (1/4) = 0 ∧
     (getOutliers dfE "k" ((3:ℚ)/2)).2.rows = []) ∧
    [Cell.num 15] ∉ (getOutliers dfF "x" ((3:ℚ)/2)).2.rows :=
  ⟨c6_outliers_strict_fences.1 dfE "k" ((3:ℚ)/2) 5 (by decide) (by decide),
   c6_outliers_strict_fences.2 dfF "x" ((3:ℚ)/2) [Cell.num 15] 15 (by norm_num)
     (by decide) (by decide) (by decide)⟩

/-! ## Lemmas on the correlation grouping -/

/-- Lookup `getD` of a mapped range, in range. -/
lemma getD_map_range {α : Type} {f : Nat → α} {n i : Nat} (d : α) (hi : i < n) :
    ((List.range n).map f).getD i d = f i := by
  rw [List.getD_eq_getElem?_getD, List.getElem?_map, List.getElem?_range hi]
  rfl

/-- The distance matrix has as many rows as the correlation matrix. -/
lemma corrToDistance_length (corr : List (List ℚ)) :
    (corrToDistance corr).length = corr.length := by
  unfold corrToDistance
  simp

/-- Row `i` of the distance matrix, in range. -/
lemma corrToDistance_getD {corr : List (List ℚ)} {i : Nat} (hi : i < corr.length) :
    (corrToDistance corr).getD i [] =
      (List.range (corr.getD i []).length).map (fun j =>
        if i = j then 0 else 1 - |matGet corr i j|) := by
  unfold corrToDistance
  exact getD_map_range _ hi

/-- When all correlations are at most one in absolute value, every
distance-matrix entry is nonnegative. -/
lemma distance_entry_nonneg {corr : List (List ℚ)}
    (hb : ∀ row ∈ corr, ∀ x ∈ row, |x| ≤ 1) (i j : Nat) :
    0 ≤ matGet (corrToDistance corr) i j := by
  unfold matGet
  by_cases hi : i < corr.length
  · rw [corrToDistance_getD hi]
    by_cases hj : j < (corr.getD i []).length
    · rw [getD_map_range _ hj]
      by_cases hij : i = j
      · simp [hij]
      · rw [if_neg hij]
        have hrow : corr.getD i [] ∈ corr := by
          rw [List.getD_eq_getElem?_getD, List.getElem?_eq_getElem hi]
          exact List.getElem_mem _
        have hx : matGet corr i j ∈ corr.getD i [] := by
          unfold matGet
          rw [List.getD_eq_getElem?_getD (corr.getD i []), List.getElem?_eq_getElem hj]
          exact List.getElem_mem _
        have h1 := hb _ hrow _ hx
        linarith
    · rw [List.getD_eq_default _ _ (by simpa using Nat.le_of_not_lt hj)]
  · have houter : (corrToDistance corr).getD i [] = [] :=
      List.getD_eq_default _ _ (by rw [corrToDistance_length]; exact Nat.le_of_not_lt hi)
    rw [houter]
    simp

/-- Average linkage over a nonnegative distance matrix is nonnegative. -/
lemma avgLinkage_nonneg {dist : List (List ℚ)}
    (hd : ∀ i j, 0 ≤ matGet dist i j) (a b : List Nat) :
    0 ≤ avgLinkage dist a b := by
  unfold avgLinkage
  apply div_nonneg
  · apply List.sum_nonneg
    intro x hx
    obtain ⟨i, _, rfl⟩ := List.mem_map.mp hx
    apply List.sum_nonneg
    intro y hy
    obtain ⟨j, _, rfl⟩ := List.mem_map.mp hy
    exact hd i j
  · exact_mod_cast Nat.zero_le _

/-- With a non-positive threshold and nonnegative distances, the
clustering loop never merges anything. -/
lemma agglomerate_no_merge {dist : List (List ℚ)} {t : ℚ}
    (ht : t ≤ 0) (hd : ∀ i j, 0 ≤ matGet dist i j)
    (fuel : Nat) (cs : List (List Nat)) :
    agglomerate dist t fuel cs = cs := by
  cases fuel with
  | zero => rfl
  | succ n =>
    unfold agglomerate
    cases hbp : bestPair dist cs with
    | none => rfl
    | some p =>
      obtain ⟨i, j⟩ := p
      show (if avgLinkage dist (cs.getD i []) (cs.getD j []) < t then
          agglomerate dist t n (mergeClusters cs i j) else cs) = cs
      rw [if_neg (not_lt.mpr (le_trans ht (avgLinkage_nonneg hd _ _)))]

/-- C9: grouping with `corr_threshold = 1` over a correlation matrix
whose entries are at most one in absolute value — in particular with no
off-diagonal pair perfectly correlated — returns only singleton groups,
one per surviving column. -/
theorem c9_singleton_groups (colNames : List String) (corr : List (List ℚ))
    (hb : ∀ row ∈ corr, ∀ x ∈ row, |x| ≤ 1)
    (hno : ∀ i, i < corr.length → ∀ j, j < (corr.getD i []).length →
      i ≠ j → |matGet corr i j| ≠ 1) :
    (∀ g ∈ pcaGroups colNames corr 1, g.2.length = 1) ∧
    (pcaGroups colNames corr 1).length = colNames.length := by
  have hd : ∀ i j, 0 ≤ matGet (corrToDistance corr) i j := distance_entry_nonneg hb
  have hth : (1:ℚ) - 1 ≤ 0 := by norm_num
  simp only [pcaGroups]
  rw [agglomerate_no_merge hth hd]
  constructor
  · intro g hg
    obtain ⟨k, hk, rfl⟩ := List.mem_map.mp hg
    have hk' : k < colNames.length := by simpa using List.mem_range.mp hk
    rw [getD_map_range _ hk']
    simp
  · simp

/-- Witness for C9: a two-column matrix with off-diagonal correlation
`1/2` yields the two singleton groups. -/
theorem c9_singleton_groups_witness :
    (∀ g ∈ pcaGroups ["u", "v"] [[1, 1/2], [1/2, 1]] 1, g.2.length = 1) ∧
    (pcaGroups ["u", "v"] [[1, 1/2], [1/2, 1]] 1).length =
      (["u", "v"] : List String).length :=
  c9_singleton_groups ["u", "v"] [[1, 1/2], [1/2, 1]] (by decide) (by decide)

end PG
